import Mathlib

/-!
Shallow embedding of the analytics pipeline of `src/expense_tracker.py`
(an expense-dashboard script built on pandas).  Dates are modelled as
integers counting days since 1970-01-01 (the resolution pandas timestamps
are compared at in this script), monetary amounts as rationals (exact
models of the float arithmetic on the small decimal inputs the claims
use), and values that failed coercion (`pd.to_datetime`/`pd.to_numeric`
with `errors="coerce"`, which yield NaT/NaN) as `none`.
-/

namespace ExpenseTracker

/-- A raw row after column coercion (lines 56-71 of the source):
`date` is `none` when `pd.to_datetime(..., errors="coerce")` produced NaT,
`amount` is `none` when `pd.to_numeric(..., errors="coerce")` produced NaN. -/
structure RawRecord where
  date : Option ℤ
  amount : Option ℚ
  expense_type : Option String
  user_id : Option String
deriving DecidableEq, Repr

/-- Fixed canonical weekday order used by the heatmap reindex (line 193). -/
def weekdayNames : List String :=
  ["Monday", "Tuesday", "Wednesday", "Thursday", "Friday", "Saturday", "Sunday"]

/-- English month names, as produced by `dt.month_name()` (line 78). -/
def monthNames : List String :=
  ["January", "February", "March", "April", "May", "June", "July",
   "August", "September", "October", "November", "December"]

/-- Weekday of a day number (days since 1970-01-01, which was a Thursday),
with Monday first; models `dt.day_name()` (line 76). -/
def weekdayName (d : ℤ) : String :=
  weekdayNames.getD ((d + 3).emod 7).toNat ""

/-- Month number (1-12) of a day number, by the standard civil-from-days
conversion; models the month extraction behind `dt.month_name()` (line 78). -/
def monthNumber (d : ℤ) : ℤ :=
  let z := d + 719468
  let era := z / 146097
  let doe := z - era * 146097
  let yoe := (doe - doe / 1460 + doe / 36524 - doe / 146096) / 365
  let doy := doe - (365 * yoe + yoe / 4 - yoe / 100)
  let mp := (5 * doy + 2) / 153
  mp + (if mp < 10 then 3 else -9)

/-- Month name of a day number; models `dt.month_name()` (line 78). -/
def monthName (d : ℤ) : String :=
  monthNames.getD (monthNumber d - 1).toNat ""

/-- A normalized row: the coerced columns plus the derived calendar
columns added on lines 76-78.  (The `week` column of line 77 is derived
but never consumed by any property verified here, so it is not modelled.) -/
structure Record where
  date : Option ℤ
  amount : Option ℚ
  expense_type : Option String
  user_id : Option String
  weekday : Option String
  month : Option String
deriving DecidableEq, Repr

/-- Comparison used by `df.sort_values("date")` (line 73): NaT sorts last. -/
def dateLE : Option ℤ → Option ℤ → Bool
  | some a, some b => a ≤ b
  | some _, none => true
  | none, some _ => false
  | none, none => true

/-- Derivation of the calendar columns for one row (lines 76-78): a row
whose date is NaT gets NaN in every derived column. -/
def deriveRecord (r : RawRecord) : Record :=
  { date := r.date
    amount := r.amount
    expense_type := r.expense_type
    user_id := r.user_id
    weekday := r.date.map weekdayName
    month := r.date.map monthName }

/-- The normalization step (lines 56-78): coerced rows are sorted by date
(NaT last) and the calendar columns are derived.  No row is dropped. -/
def normalize (raws : List RawRecord) : List Record :=
  (List.insertionSort (fun a b => dateLE a.date b.date = true) raws).map deriveRecord

/-- The inclusive date-range filter (line 118):
`df_filtered[(df_filtered["date"] >= start_date) & (df_filtered["date"] <= end_date)]`.
A NaT date compares false on both sides, so such rows are excluded. -/
def applyDateFilter (rs : List Record) (s e : ℤ) : List Record :=
  rs.filter fun r =>
    match r.date with
    | some d => decide (s ≤ d) && decide (d ≤ e)
    | none => false

/-- The category filter (lines 123-124):
`if expense_types and selected_types: df_filtered = df_filtered[df_filtered["expense_type"].isin(selected_types)]`.
It runs only when both the available-type list and the selection are
non-empty; `isin` is false for a NaN `expense_type`. -/
def applyCategoryFilter (rs : List Record) (avail sel : List String) : List Record :=
  if avail.isEmpty || sel.isEmpty then rs
  else
    rs.filter fun r =>
      match r.expense_type with
      | some t => sel.contains t
      | none => false

/-- Sum of the `amount` column of a group, as pandas `.sum()` computes it:
NaN values are skipped (contribute zero). -/
def sumAmounts (rs : List Record) : ℚ :=
  (rs.map fun r => r.amount.getD 0).sum

/-- Insert a key into a strictly-sorted (w.r.t. the strict comparison `lt`)
duplicate-free list of keys, keeping it strictly sorted and duplicate-free. -/
def insertSortedDedup {α : Type} [DecidableEq α] (lt : α → α → Bool) (d : α) :
    List α → List α
  | [] => [d]
  | x :: xs =>
    if lt d x then d :: x :: xs
    else if d = x then x :: xs
    else x :: insertSortedDedup lt d xs

/-- The sorted list of distinct keys of a column, as a pandas `groupby`
produces for its index. -/
def sortedDedup {α : Type} [DecidableEq α] (lt : α → α → Bool) (ds : List α) : List α :=
  ds.foldr (insertSortedDedup lt) []

/-- Strict order on day numbers, as a boolean comparison. -/
def intLtB (a b : ℤ) : Bool := decide (a < b)

/-- Lexicographic strict order on character lists (the order pandas uses
for string group keys). -/
def charListLtB : List Char → List Char → Bool
  | [], [] => false
  | [], _ :: _ => true
  | _ :: _, [] => false
  | a :: as, b :: bs => if a < b then true else if b < a then false else charListLtB as bs

/-- Lexicographic strict order on strings. -/
def strLtB (a b : String) : Bool := charListLtB a.data b.data

/-- Daily aggregation (line 168):
`df_filtered.groupby("date")["amount"].sum().reset_index().sort_values("date")`.
NaT keys form no group; each distinct date maps to the sum of its amounts. -/
def aggregateByDate (rs : List Record) : List (ℤ × ℚ) :=
  (sortedDedup intLtB (rs.filterMap Record.date)).map fun d =>
    (d, sumAmounts (rs.filter fun r => r.date = some d))

/-- Category aggregation (line 236):
`df_filtered.groupby("expense_type")["amount"].sum()`.  NaN keys form no
group; group keys come out sorted. -/
def aggregateByCategory (rs : List Record) : List (String × ℚ) :=
  (sortedDedup strLtB (rs.filterMap Record.expense_type)).map fun c =>
    (c, sumAmounts (rs.filter fun r => r.expense_type = some c))

/-- Arithmetic mean of a column, as pandas `.mean()` computes it. -/
def mean (xs : List ℚ) : ℚ := xs.sum / xs.length

/-- Population variance (`ddof=0`) of a column: mean squared deviation. -/
def popVar (xs : List ℚ) : ℚ :=
  ((xs.map fun x => (x - mean xs) ^ 2).sum) / xs.length

/-- Population standard deviation, `daily2["amount"].std(ddof=0)` (line 218). -/
noncomputable def popStd (xs : List ℚ) : ℝ := Real.sqrt ((popVar xs : ℚ) : ℝ)

/-- The z-score of one amount against the series (line 218):
`(daily2["amount"] - daily2["amount"].mean()) / std`. -/
noncomputable def zScore (xs : List ℚ) (x : ℚ) : ℝ :=
  (((x : ℚ) : ℝ) - ((mean xs : ℚ) : ℝ)) / popStd xs

/-- The outlier flag (lines 218-219): when the standard deviation is zero
the divisor is replaced by NaN, every comparison with which is false, so a
point is an outlier exactly when the standard deviation is non-zero and
its z-score is at least 2. -/
def isOutlier (xs : List ℚ) (x : ℚ) : Prop :=
  popStd xs ≠ 0 ∧ zScore xs x ≥ 2

/-- Trailing rolling mean (line 169):
`daily["amount"].rolling(7, min_periods=1).mean()` generalized over the
window width: the value at index `i` is the mean of the window of the last
at most `w` values ending at `i`. -/
def rollingMean (w : ℕ) (xs : List ℚ) : List ℚ :=
  (List.range xs.length).map fun i => mean ((xs.take (i + 1)).drop (i + 1 - w))

/-- The month columns of the pivot (line 193): the distinct month names
present in the filtered data, sorted, as `pivot_table` orders its columns.
NaN keys form no column. -/
def monthsOf (rs : List Record) : List String :=
  sortedDedup strLtB (rs.filterMap Record.month)

/-- One cell of the pivot (line 193):
`pivot_table(index="weekday", columns="month", values="amount", aggfunc="sum")`.
The cell is absent (NaN) when no row has that weekday/month pair. -/
def cell (rs : List Record) (w m : String) : Option ℚ :=
  let g := rs.filter fun r => r.weekday = some w ∧ r.month = some m
  if g.isEmpty then none else some (sumAmounts g)

/-- The pivot matrix after the reindex to the fixed weekday order
(line 193): one row per canonical weekday, one column per month present. -/
def crosstab (rs : List Record) : List (String × List (String × Option ℚ)) :=
  weekdayNames.map fun w => (w, (monthsOf rs).map fun m => (m, cell rs w m))

/-- The emptiness test `heatmap.isnull().all().all()` (line 194). -/
def crosstabAllAbsent (rs : List Record) : Bool :=
  (crosstab rs).all fun row => row.2.all fun c => c.2.isNone

/-- The heatmap branch (lines 194-199): when every cell is absent the
builder signals the empty condition (`none`, the info message) instead of
producing the zero-filled matrix (`heatmap.fillna(0)`). -/
def heatmapResult (rs : List Record) : Option (List (String × List (String × ℚ))) :=
  if crosstabAllAbsent rs then none
  else some (weekdayNames.map fun w =>
    (w, (monthsOf rs).map fun m => (m, (cell rs w m).getD 0)))


/-- Concrete raw rows mirroring the end-to-end example of the spec:
day number 19723 is 2024-01-01, 19724 is 2024-01-02. -/
def exRaw1 : RawRecord := ⟨some 19723, some 100, some "food", some "u1"⟩

def exRaw2 : RawRecord := ⟨some 19723, some 50, some "food", some "u2"⟩

def exRaw3 : RawRecord := ⟨some 19724, some 10, some "travel", some "u1"⟩

/-- A raw row whose date failed coercion (NaT). -/
def exRawBad : RawRecord := ⟨none, some 5, some "food", some "u1"⟩

/-- The normalized example RecordSet. -/
def exRecords : List Record := normalize [exRaw1, exRaw2, exRaw3]

def exRec1 : Record :=
  ⟨some 19723, some 100, some "food", some "u1", some "Monday", some "January"⟩

def exRec2 : Record :=
  ⟨some 19723, some 50, some "food", some "u2", some "Monday", some "January"⟩

def exRec3 : Record :=
  ⟨some 19724, some 10, some "travel", some "u1", some "Tuesday", some "January"⟩

theorem mem_insertSortedDedup {α : Type} [DecidableEq α] (lt : α → α → Bool)
    (d y : α) : ∀ l : List α, y ∈ insertSortedDedup lt d l ↔ y = d ∨ y ∈ l
  | [] => by simp [insertSortedDedup]
  | x :: xs => by
    by_cases h1 : lt d x
    · simp [insertSortedDedup, h1]
    · by_cases h2 : d = x
      · subst h2
        simp [insertSortedDedup, h1]
      · simp only [insertSortedDedup, if_neg h1, if_neg h2, List.mem_cons,
          mem_insertSortedDedup lt d y xs]
        tauto

theorem sorted_insertSortedDedup {α : Type} [LinearOrder α]
    (lt : α → α → Bool) (hlt : ∀ a b, lt a b = true ↔ a < b) (d : α) :
    ∀ l : List α, l.Sorted (· < ·) → (insertSortedDedup lt d l).Sorted (· < ·)
  | [], _ => by simp [insertSortedDedup]
  | x :: xs, hs => by
    rw [List.sorted_cons] at hs
    by_cases h1 : lt d x
    · have hdx : d < x := (hlt d x).mp h1
      rw [insertSortedDedup, if_pos h1, List.sorted_cons]
      refine ⟨?_, List.sorted_cons.mpr hs⟩
      intro b hb
      rcases List.mem_cons.mp hb with rfl | hb
      · exact hdx
      · exact hdx.trans (hs.1 b hb)
    · by_cases h2 : d = x
      · subst h2
        rw [insertSortedDedup, if_neg h1, if_pos rfl]
        exact List.sorted_cons.mpr hs
      · have hxd : x < d := by
          rcases lt_trichotomy d x with h | h | h
          · exact absurd ((hlt d x).mpr h) h1
          · exact absurd h h2
          · exact h
        rw [insertSortedDedup, if_neg h1, if_neg h2, List.sorted_cons]
        refine ⟨?_, sorted_insertSortedDedup lt hlt d xs hs.2⟩
        intro b hb
        rcases (mem_insertSortedDedup lt d b xs).mp hb with rfl | hb
        · exact hxd
        · exact hs.1 b hb

theorem sorted_sortedDedup {α : Type} [LinearOrder α]
    (lt : α → α → Bool) (hlt : ∀ a b, lt a b = true ↔ a < b) (ds : List α) :
    (sortedDedup lt ds).Sorted (· < ·) := by
  induction ds with
  | nil => simp [sortedDedup]
  | cons x xs ih => exact sorted_insertSortedDedup lt hlt x _ ih

theorem mem_sortedDedup {α : Type} [DecidableEq α] (lt : α → α → Bool)
    (y : α) (ds : List α) : y ∈ sortedDedup lt ds ↔ y ∈ ds := by
  induction ds with
  | nil => simp [sortedDedup]
  | cons x xs ih =>
    rw [sortedDedup, List.foldr_cons, mem_insertSortedDedup]
    rw [sortedDedup] at ih
    rw [ih]
    simp

theorem intLtB_iff (a b : ℤ) : intLtB a b = true ↔ a < b := by
  simp [intLtB]

theorem charListLtB_self : ∀ l : List Char, charListLtB l l = false
  | [] => rfl
  | a :: as => by
    rw [charListLtB, if_neg (lt_irrefl a), if_neg (lt_irrefl a)]
    exact charListLtB_self as

theorem strLtB_self (s : String) : strLtB s s = false :=
  charListLtB_self s.data

theorem insertSortedDedup_singleton_self {α : Type} [DecidableEq α]
    (lt : α → α → Bool) (d : α) (h : lt d d = false) :
    insertSortedDedup lt d [d] = [d] := by
  rw [insertSortedDedup, if_neg (by simp [h]), if_pos rfl]

theorem sortedDedup_replicate {α : Type} [DecidableEq α]
    (lt : α → α → Bool) (d : α) (h : lt d d = false) :
    ∀ n : ℕ, 0 < n → sortedDedup lt (List.replicate n d) = [d]
  | 1, _ => by simp [sortedDedup, List.replicate, insertSortedDedup]
  | n + 2, _ => by
    rw [List.replicate, sortedDedup, List.foldr_cons]
    rw [show List.foldr (insertSortedDedup lt) [] (List.replicate (n+1) d)
        = sortedDedup lt (List.replicate (n+1) d) from rfl]
    rw [sortedDedup_replicate lt d h (n+1) (Nat.succ_pos n)]
    exact insertSortedDedup_singleton_self lt d h


theorem popVar_nonneg (xs : List ℚ) : 0 ≤ popVar xs := by
  unfold popVar
  apply div_nonneg
  · apply List.sum_nonneg
    intro x hx
    rcases List.mem_map.mp hx with ⟨y, _, rfl⟩
    positivity
  · positivity

theorem popStd_nonneg (xs : List ℚ) : 0 ≤ popStd xs := Real.sqrt_nonneg _

theorem popStd_eq_zero_iff (xs : List ℚ) : popStd xs = 0 ↔ popVar xs = 0 := by
  unfold popStd
  rw [Real.sqrt_eq_zero']
  constructor
  · intro h
    have h0 : ((0:ℚ):ℝ) ≤ ((popVar xs : ℚ) : ℝ) := by exact_mod_cast popVar_nonneg xs
    have h1 : ((popVar xs : ℚ) : ℝ) = 0 := le_antisymm h (by exact_mod_cast h0)
    exact_mod_cast h1
  · intro h
    rw [h]
    norm_num

theorem mean_const (xs : List ℚ) (c : ℚ) (h : ∀ x ∈ xs, x = c) (hne : xs ≠ []) :
    mean xs = c := by
  unfold mean
  rw [List.sum_eq_card_nsmul xs c h, nsmul_eq_mul]
  have hlen : (xs.length : ℚ) ≠ 0 :=
    Nat.cast_ne_zero.mpr (List.length_pos.mpr hne).ne'
  exact mul_div_cancel_left₀ c hlen

theorem popVar_const (xs : List ℚ) (c : ℚ) (h : ∀ x ∈ xs, x = c) :
    popVar xs = 0 := by
  rcases List.eq_nil_or_concat xs with rfl | _
  · simp [popVar]
  · have hne : xs ≠ [] := by rintro rfl; simp_all
    unfold popVar
    have hz : (xs.map fun x => (x - mean xs) ^ 2).sum = 0 := by
      apply List.sum_eq_zero
      intro y hy
      rcases List.mem_map.mp hy with ⟨x, hx, rfl⟩
      rw [h x hx, mean_const xs c h hne]
      ring
    rw [hz, zero_div]

theorem map_fst_aggregateByDate (rs : List Record) :
    (aggregateByDate rs).map Prod.fst = sortedDedup intLtB (rs.filterMap Record.date) := by
  unfold aggregateByDate
  rw [List.map_map]
  exact List.map_id _

theorem mem_dates_aggregateByDate (rs : List Record) (r : Record) (d : ℤ)
    (hr : r ∈ rs) (hd : r.date = some d) :
    d ∈ (aggregateByDate rs).map Prod.fst := by
  rw [map_fst_aggregateByDate, mem_sortedDedup]
  exact List.mem_filterMap.mpr ⟨r, hr, hd⟩


/-- Claim C9: when the selected-category set is empty the category filter is
skipped entirely and every row passes; the filter can only exclude rows
when both the available-category list and the selection are non-empty. -/
theorem categoryFilter_skipped_when_no_selection :
    (∀ (rs : List Record) (avail : List String), applyCategoryFilter rs avail [] = rs)
    ∧ (∀ (rs : List Record) (avail sel : List String),
        applyCategoryFilter rs avail sel ≠ rs → avail ≠ [] ∧ sel ≠ []) := by
  constructor
  · intro rs avail
    simp [applyCategoryFilter]
  · intro rs avail sel hne
    constructor
    · rintro rfl
      exact hne (by simp [applyCategoryFilter])
    · rintro rfl
      exact hne (by simp [applyCategoryFilter])

/-- Witness for C9 at a concrete input: an empty selection passes the
whole example set through, and a restricting selection is non-empty. -/
theorem categoryFilter_skipped_when_no_selection_witness :
    applyCategoryFilter exRecords ["food", "travel"] [] = exRecords
    ∧ (applyCategoryFilter exRecords ["food", "travel"] ["housing"] ≠ exRecords
      ∧ ["food", "travel"] ≠ ([] : List String) ∧ ["housing"] ≠ ([] : List String)) := by
  refine ⟨categoryFilter_skipped_when_no_selection.1 exRecords _, ?_⟩
  have h : applyCategoryFilter exRecords ["food", "travel"] ["housing"] ≠ exRecords := by
    decide
  have h2 := categoryFilter_skipped_when_no_selection.2 exRecords _ _ h
  exact ⟨h, h2⟩

/-- Claim C2 (counterexample): with an inverted range the date filter yields the
empty set, not the unfiltered set, so the claimed full-span substitution
does not happen. -/
theorem invertedRange_not_full_span :
    applyDateFilter exRecords 19724 19723 = []
    ∧ applyDateFilter exRecords 19724 19723 ≠ exRecords := by
  constructor
  · decide
  · decide

/-- Claim C2 (amended): for a normalized RecordSet and an inverted range
(`end < start`) the date filter retains no row at all; the empty result is
then surfaced by the downstream no-data check, and the full-span
substitution happens only when the range input fails to parse. -/
theorem invertedRange_filter_empty (rs : List Record) (s e : ℤ) (h : e < s) :
    applyDateFilter rs s e = [] := by
  rw [applyDateFilter, List.filter_eq_nil_iff]
  intro r _
  cases hd : r.date with
  | none => simp
  | some d =>
    simp only [Bool.and_eq_true, decide_eq_true_eq, not_and]
    intro hs he
    omega

/-- Witness for the amended C2 at a concrete inverted range. -/
theorem invertedRange_filter_empty_witness :
    (19723 : ℤ) < 19724 ∧ applyDateFilter exRecords 19724 19723 = [] :=
  ⟨by decide, invertedRange_filter_empty exRecords 19724 19723 (by decide)⟩

/-- Claim C10: every row retained by the date-range filter has a non-NaT date
(the inclusive comparison is false on NaT), and every retained row lands
in a real-date group of the daily aggregation. -/
theorem dateFilter_excludes_null_dates (rs : List Record) (s e : ℤ) :
    (∀ r ∈ applyDateFilter rs s e, r.date ≠ none)
    ∧ (∀ r ∈ applyDateFilter rs s e, ∃ d : ℤ, r.date = some d
        ∧ d ∈ (aggregateByDate (applyDateFilter rs s e)).map Prod.fst) := by
  have hmem : ∀ r ∈ applyDateFilter rs s e, ∃ d : ℤ, r.date = some d := by
    intro r hr
    rw [applyDateFilter, List.mem_filter] at hr
    rcases hr with ⟨_, hpred⟩
    cases hd : r.date with
    | none => rw [hd] at hpred; simp at hpred
    | some d => exact ⟨d, rfl⟩
  constructor
  · intro r hr
    rcases hmem r hr with ⟨d, hd⟩
    rw [hd]
    simp
  · intro r hr
    rcases hmem r hr with ⟨d, hd⟩
    exact ⟨d, hd, mem_dates_aggregateByDate _ r d hr hd⟩

/-- Witness for C10 at a concrete filtered set. -/
theorem dateFilter_excludes_null_dates_witness :
    exRec1 ∈ applyDateFilter exRecords 19723 19724 ∧ exRec1.date ≠ none :=
  ⟨by decide, (dateFilter_excludes_null_dates exRecords 19723 19724).1 exRec1 (by decide)⟩

/-- Claim C1 (counterexample): a raw row whose date fails coercion is NOT
dropped by normalization: it survives with a null date. -/
theorem normalization_drop_claim_false :
    (normalize [exRawBad]).length = 1
    ∧ (normalize [exRawBad]).map Record.date = [none] := by
  constructor
  · decide
  · decide

/-- Claim C1 (amended): normalization retains every raw row exactly once (it
only reorders rows by date and adds derived columns); rows whose date or
amount failed coercion are kept with null values, not dropped. -/
theorem normalize_retains_all_rows (raws : List RawRecord) :
    ((normalize raws).map fun r => (r.date, r.amount)).Perm
      (raws.map fun r => (r.date, r.amount)) := by
  unfold normalize
  rw [List.map_map]
  exact (List.perm_insertionSort _ raws).map _

/-- Claim C4: for a constant series the population variance is zero, so no
z-score is defined (the NaN divisor) and no point is flagged; no division
error occurs (the computation is total). -/
theorem outlier_constant_series (xs : List ℚ) (c : ℚ) (h : ∀ x ∈ xs, x = c) :
    popVar xs = 0 ∧ ∀ x ∈ xs, ¬ isOutlier xs x := by
  have hv := popVar_const xs c h
  refine ⟨hv, ?_⟩
  intro x _ hout
  exact hout.1 ((popStd_eq_zero_iff xs).mpr hv)

/-- Witness for C4 on a concrete constant series. -/
theorem outlier_constant_series_witness :
    (∀ x ∈ [(5:ℚ), 5, 5], x = 5)
    ∧ (popVar [(5:ℚ), 5, 5] = 0 ∧ ∀ x ∈ [(5:ℚ), 5, 5], ¬ isOutlier [(5:ℚ), 5, 5] x) :=
  ⟨by decide, outlier_constant_series [(5:ℚ), 5, 5] 5 (by decide)⟩


theorem rollingMean_getElem (w : ℕ) (xs : List ℚ) (i : ℕ) (h : i < xs.length) :
    (rollingMean w xs)[i]? = some (mean ((xs.take (i + 1)).drop (i + 1 - w))) := by
  rw [rollingMean, List.getElem?_map, List.getElem?_range h]
  rfl

/-- Claim C5: the rolling mean is a trailing window of width at most 7: at
index `i` it is the mean of the slice from `max 0 (i-6)` (here `i - 6`
in truncated subtraction) through `i`; at index 0 it is the raw value,
and at every index `k < 6` it is the mean of indices `0..k`, also when
the series is shorter than the window. -/
theorem rollingMean_trailing_window :
    (∀ xs : List ℚ, (rollingMean 7 xs).length = xs.length)
    ∧ (∀ (xs : List ℚ) (i : ℕ), i < xs.length →
        (rollingMean 7 xs)[i]? = some (mean ((xs.take (i + 1)).drop (i - 6))))
    ∧ (∀ xs : List ℚ, xs ≠ [] → (rollingMean 7 xs)[0]? = xs[0]?)
    ∧ (∀ (xs : List ℚ) (k : ℕ), k < 6 → k < xs.length →
        (rollingMean 7 xs)[k]? = some (mean (xs.take (k + 1)))) := by
  refine ⟨?_, ?_, ?_, ?_⟩
  · intro xs
    rw [rollingMean, List.length_map, List.length_range]
  · intro xs i h
    have h7 : i + 1 - 7 = i - 6 := by omega
    rw [rollingMean_getElem 7 xs i h, h7]
  · intro xs hne
    match xs, hne with
    | x :: t, _ =>
      rw [rollingMean_getElem 7 (x :: t) 0 (by simp)]
      simp [mean]
  · intro xs k hk h
    rw [rollingMean_getElem 7 xs k h]
    have h0 : k + 1 - 7 = 0 := by omega
    rw [h0, List.drop_zero]

/-- Witness for C5 on a concrete three-point series. -/
theorem rollingMean_trailing_window_witness :
    1 < ([(1:ℚ), 2, 3]).length
    ∧ (rollingMean 7 [(1:ℚ), 2, 3])[1]?
      = some (mean (([(1:ℚ), 2, 3].take (1 + 1)).drop (1 - 6))) :=
  ⟨by decide, rollingMean_trailing_window.2.1 [(1:ℚ), 2, 3] 1 (by decide)⟩

/-- Claim C6: the daily aggregation has strictly increasing dates, each distinct
date exactly once, each total is the sum of the amounts of the records on
that date, and every record date appears as a group. -/
theorem aggregateByDate_strictly_increasing (rs : List Record) :
    ((aggregateByDate rs).map Prod.fst).Sorted (· < ·)
    ∧ ((aggregateByDate rs).map Prod.fst).Nodup
    ∧ (∀ p ∈ aggregateByDate rs,
        p.2 = sumAmounts (rs.filter fun r => r.date = some p.1))
    ∧ (∀ r ∈ rs, ∀ d : ℤ, r.date = some d → d ∈ (aggregateByDate rs).map Prod.fst) := by
  have hs : ((aggregateByDate rs).map Prod.fst).Sorted (· < ·) := by
    rw [map_fst_aggregateByDate]
    exact sorted_sortedDedup intLtB intLtB_iff _
  refine ⟨hs, hs.nodup, ?_, ?_⟩
  · intro p hp
    rw [aggregateByDate] at hp
    rcases List.mem_map.mp hp with ⟨d, _, rfl⟩
    rfl
  · intro r hr d hd
    exact mem_dates_aggregateByDate rs r d hr hd

/-- Witness for C6 at a concrete RecordSet: a record on 2024-01-01 yields
that date among the aggregation groups. -/
theorem aggregateByDate_strictly_increasing_witness :
    (exRec1 ∈ exRecords ∧ exRec1.date = some 19723)
    ∧ (19723 : ℤ) ∈ (aggregateByDate exRecords).map Prod.fst :=
  ⟨⟨by decide, by decide⟩,
    (aggregateByDate_strictly_increasing exRecords).2.2.2 exRec1 (by decide) 19723 (by decide)⟩


theorem mean_spike : mean [(10:ℚ), 10, 10, 10, 100] = 28 := by
  simp [mean]
  norm_num

theorem popVar_spike : popVar [(10:ℚ), 10, 10, 10, 100] = 1296 := by
  rw [popVar, mean_spike]
  simp
  norm_num

theorem popStd_spike : popStd [(10:ℚ), 10, 10, 10, 100] = 36 := by
  rw [popStd, popVar_spike]
  rw [show ((1296:ℚ):ℝ) = 36 ^ 2 by norm_num]
  exact Real.sqrt_sq (by norm_num)

theorem mean_spike0 : mean [(100:ℚ), 10, 10, 10, 10] = 28 := by
  simp [mean]
  norm_num

theorem popVar_spike0 : popVar [(100:ℚ), 10, 10, 10, 10] = 1296 := by
  rw [popVar, mean_spike0]
  simp
  norm_num

theorem popStd_spike0 : popStd [(100:ℚ), 10, 10, 10, 10] = 36 := by
  rw [popStd, popVar_spike0]
  rw [show ((1296:ℚ):ℝ) = 36 ^ 2 by norm_num]
  exact Real.sqrt_sq (by norm_num)

theorem isOutlier_spike_100 : isOutlier [(10:ℚ), 10, 10, 10, 100] 100 := by
  constructor
  · rw [popStd_spike]
    norm_num
  · rw [zScore, mean_spike, popStd_spike]
    norm_num

theorem not_isOutlier_spike_10 : ¬ isOutlier [(10:ℚ), 10, 10, 10, 100] 10 := by
  rintro ⟨_, hz⟩
  rw [zScore, mean_spike, popStd_spike] at hz
  norm_num at hz

theorem isOutlier_spike0_100 : isOutlier [(100:ℚ), 10, 10, 10, 10] 100 := by
  constructor
  · rw [popStd_spike0]
    norm_num
  · rw [zScore, mean_spike0, popStd_spike0]
    norm_num

theorem not_isOutlier_spike0_10 : ¬ isOutlier [(100:ℚ), 10, 10, 10, 10] 10 := by
  rintro ⟨_, hz⟩
  rw [zScore, mean_spike0, popStd_spike0] at hz
  norm_num at hz

/-- Claim C3: the flag rule is one-sided: with non-degenerate deviation a point
is flagged exactly when its population z-score is at least 2; a point
below the mean is never flagged; on the spike series `[10,10,10,10,100]`
exactly the last point is flagged and on `[100,10,10,10,10]` exactly the
first. -/
theorem outlier_one_sided :
    (∀ (xs : List ℚ) (x : ℚ), popVar xs ≠ 0 → (isOutlier xs x ↔ zScore xs x ≥ 2))
    ∧ (∀ (xs : List ℚ) (x : ℚ), x < mean xs → ¬ isOutlier xs x)
    ∧ (∀ i : Fin 5,
        isOutlier [(10:ℚ), 10, 10, 10, 100] ([(10:ℚ), 10, 10, 10, 100].get i)
          ↔ (i : ℕ) = 4)
    ∧ (∀ i : Fin 5,
        isOutlier [(100:ℚ), 10, 10, 10, 10] ([(100:ℚ), 10, 10, 10, 10].get i)
          ↔ (i : ℕ) = 0) := by
  refine ⟨?_, ?_, ?_, ?_⟩
  · intro xs x hv
    constructor
    · exact fun h => h.2
    · intro hz
      refine ⟨?_, hz⟩
      rw [Ne, popStd_eq_zero_iff]
      exact hv
  · intro xs x hx
    rintro ⟨hstd, hz⟩
    have hpos : 0 < popStd xs := (popStd_nonneg xs).lt_of_ne (Ne.symm hstd)
    have hnum : ((x:ℚ):ℝ) - ((mean xs : ℚ):ℝ) < 0 := by
      rw [sub_neg]
      exact_mod_cast hx
    have : zScore xs x < 0 := div_neg_of_neg_of_pos hnum hpos
    rw [zScore] at this
    rw [zScore] at hz
    linarith
  · intro i
    fin_cases i
    · simpa using not_isOutlier_spike_10
    · simpa using not_isOutlier_spike_10
    · simpa using not_isOutlier_spike_10
    · simpa using not_isOutlier_spike_10
    · simpa using isOutlier_spike_100
  · intro i
    fin_cases i
    · simpa using isOutlier_spike0_100
    · simpa using not_isOutlier_spike0_10
    · simpa using not_isOutlier_spike0_10
    · simpa using not_isOutlier_spike0_10
    · simpa using not_isOutlier_spike0_10

/-- Witness for C3 at the concrete spike series. -/
theorem outlier_one_sided_witness :
    (popVar [(10:ℚ), 10, 10, 10, 100] ≠ 0
      ∧ (isOutlier [(10:ℚ), 10, 10, 10, 100] 100
          ↔ zScore [(10:ℚ), 10, 10, 10, 100] 100 ≥ 2))
    ∧ ((10:ℚ) < mean [(10:ℚ), 10, 10, 10, 100]
      ∧ ¬ isOutlier [(10:ℚ), 10, 10, 10, 100] 10) := by
  have hv : popVar [(10:ℚ), 10, 10, 10, 100] ≠ 0 := by
    rw [popVar_spike]
    norm_num
  have hm : (10:ℚ) < mean [(10:ℚ), 10, 10, 10, 100] := by
    rw [mean_spike]
    norm_num
  exact ⟨⟨hv, outlier_one_sided.1 _ 100 hv⟩, ⟨hm, outlier_one_sided.2.1 _ 10 hm⟩⟩


theorem filterMap_month_const (m0 : String) :
    ∀ l : List Record, (∀ r ∈ l, r.month = some m0) →
      l.filterMap Record.month = List.replicate l.length m0
  | [], _ => by simp
  | a :: t, hl => by
    rw [List.filterMap_cons, hl a (List.mem_cons_self a t), List.length_cons,
      List.replicate_succ, filterMap_month_const m0 t
        (fun r hr => hl r (List.mem_cons_of_mem a hr))]

/-- Claim C7: when every record falls on one weekday/month pair, the reindexed
pivot has exactly one non-absent cell, holding the total of all amounts,
and the other six weekday rows are all-absent; and whenever every cell is
absent the builder signals the empty condition instead of producing the
zero-filled matrix. -/
theorem crosstab_single_pair (rs : List Record) (w0 m0 : String)
    (hne : rs ≠ []) (hw : w0 ∈ weekdayNames)
    (h : ∀ r ∈ rs, r.weekday = some w0 ∧ r.month = some m0) :
    crosstab rs
      = weekdayNames.map (fun w =>
          (w, [(m0, if w = w0 then some (sumAmounts rs) else none)]))
    ∧ (∀ rs' : List Record, crosstabAllAbsent rs' = true → heatmapResult rs' = none) := by
  constructor
  · have hmonths : monthsOf rs = [m0] := by
      rw [monthsOf, filterMap_month_const m0 rs (fun r hr => (h r hr).2),
        sortedDedup_replicate strLtB m0 (strLtB_self m0) rs.length
          (List.length_pos.mpr hne)]
    have hcell0 : cell rs w0 m0 = some (sumAmounts rs) := by
      rw [cell]
      have hf : rs.filter (fun r => decide (r.weekday = some w0 ∧ r.month = some m0)) = rs :=
        List.filter_eq_self.mpr (fun r hr => by
          simpa using h r hr)
      simp only [hf]
      rw [if_neg (by simpa using hne)]
    have hcells : ∀ w, w ≠ w0 → cell rs w m0 = none := by
      intro w hwne
      rw [cell]
      have hf : rs.filter (fun r => decide (r.weekday = some w ∧ r.month = some m0)) = [] := by
        rw [List.filter_eq_nil_iff]
        intro r hr
        have h1 := (h r hr).1
        simp [h1]
        intro hcontr
        exact absurd hcontr.symm hwne
      simp only [hf]
      rfl
    rw [crosstab]
    apply List.map_congr_left
    intro w hwmem
    rw [hmonths]
    by_cases hww : w = w0
    · subst hww
      rw [if_pos rfl]
      simp [hcell0]
    · rw [if_neg hww]
      simp [hcells w hww]
  · intro rs' h'
    rw [heatmapResult, if_pos h']

/-- Witness for C7: a single Monday-in-January record produces exactly
one live cell in the Monday row. -/
theorem crosstab_single_pair_witness :
    ([exRec1] ≠ ([] : List Record) ∧ "Monday" ∈ weekdayNames
      ∧ (∀ r ∈ [exRec1], r.weekday = some "Monday" ∧ r.month = some "January"))
    ∧ crosstab [exRec1]
        = weekdayNames.map (fun w =>
            (w, [("January", if w = "Monday" then some (sumAmounts [exRec1]) else none)])) :=
  ⟨⟨by decide, by decide, by decide⟩,
    (crosstab_single_pair [exRec1] "Monday" "January" (by decide) (by decide) (by decide)).1⟩


/-- Claim C8: the end-to-end example: three records (2024-01-01, 100, food),
(2024-01-01, 50, food), (2024-01-02, 10, travel) pass unrestricting
filters unchanged; daily aggregation gives [(2024-01-01, 150),
(2024-01-02, 10)] and category aggregation gives food 150, travel 10
(day numbers 19723 and 19724 are 2024-01-01 and 2024-01-02). -/
theorem end_to_end_example :
    applyCategoryFilter (applyDateFilter exRecords 19723 19724)
        ["food", "travel"] ["food", "travel"] = exRecords
    ∧ aggregateByDate exRecords = [(19723, 150), (19724, 10)]
    ∧ aggregateByCategory exRecords = [("food", 150), ("travel", 10)] := by
  have hdates : sortedDedup intLtB (exRecords.filterMap Record.date)
      = [19723, 19724] := by decide
  have hcats : sortedDedup strLtB (exRecords.filterMap Record.expense_type)
      = ["food", "travel"] := by decide
  have hd1 : exRecords.filter (fun r => r.date = some 19723) = [exRec1, exRec2] := by
    decide
  have hd2 : exRecords.filter (fun r => r.date = some 19724) = [exRec3] := by decide
  have hc1 : exRecords.filter (fun r => r.expense_type = some "food")
      = [exRec1, exRec2] := by decide
  have hc2 : exRecords.filter (fun r => r.expense_type = some "travel") = [exRec3] := by
    decide
  refine ⟨by decide, ?_, ?_⟩
  · rw [aggregateByDate, hdates]
    simp only [List.map_cons, List.map_nil]
    rw [hd1, hd2]
    simp [sumAmounts, exRec1, exRec2, exRec3]
    norm_num
  · rw [aggregateByCategory, hcats]
    simp only [List.map_cons, List.map_nil]
    rw [hc1, hc2]
    simp [sumAmounts, exRec1, exRec2, exRec3]
    norm_num

end ExpenseTracker
